import Mathlib

/-!
Shallow embedding of `taskmanager.py`: a `Task` record, a JSON-file-backed
repository (`JsonTaskRepository.save_tasks` / `load_tasks`) and a `TaskManager`
(`add_task`, `complete_task`, `list_tasks`) orchestrating an in-memory
collection over the repository.

Modelling decisions, stated once here:
* JSON scalar values are the inductive `JVal` (integers, strings, booleans);
  these are the only dynamic types that the program ever stores.
* The backing file is a `FileState`: `absent` (path does not exist),
  `malformed` (content that `json.load` cannot parse into a list of objects,
  which also covers a truncated partial write), or `doc objs` (a parsed JSON
  array of objects, each object an association list of key-value pairs).
* `save_tasks` opens the path in write mode, which truncates the file at once,
  and then streams the serialized array. A `WriteFault` picks the outcome:
  the write completes, the open itself fails (file untouched), or the write
  fails midway. Every strict prefix of the serialized array text has an
  unclosed bracket and is not valid JSON, so a midway failure leaves the file
  `malformed`.
* The source raises the built-in `Exception` (wrapping the cause) for storage
  failures and `ValueError` for an unknown task id; the spec names these
  roles StorageError and TaskNotFoundError, and the embedding follows the
  role names.
* Python performs no keyword type check in `Task(**d)`, so the embedded task
  fields are raw `JVal`s, and `pyEq` reproduces Python equality on the scalar
  values that can occur (booleans compare equal to their 0/1 integers).
-/

namespace Taskmanager

inductive JVal where
  | jint (n : Int)
  | jstr (s : String)
  | jbool (b : Bool)
deriving DecidableEq, Repr

/-- Python `==` restricted to the JSON scalar values in play: `True == 1` and
`False == 0` hold in Python, values of otherwise distinct types are unequal. -/
def pyEq : JVal → JVal → Bool
  | .jint a, .jint b => a == b
  | .jstr a, .jstr b => a == b
  | .jbool a, .jbool b => a == b
  | .jint a, .jbool b => a == (if b then (1 : Int) else 0)
  | .jbool a, .jint b => (if a then (1 : Int) else 0) == b
  | _, _ => false

def JVal.isInt : JVal → Bool
  | .jint _ => true
  | _ => false

def JVal.isStr : JVal → Bool
  | .jstr _ => true
  | _ => false

def JVal.isBool : JVal → Bool
  | .jbool _ => true
  | _ => false

/-- `class Task`: fields are whatever values arrived, as in the source, where
`Task.__init__` stores its arguments without validation. -/
structure Task where
  task_id : JVal
  title : JVal
  description : JVal
  completed : JVal
deriving DecidableEq, Repr

/-- `Task.mark_completed`: sets `completed = True` unconditionally. -/
def Task.mark_completed (t : Task) : Task := { t with completed := .jbool true }

/-- A parsed JSON object: association list of keys to values (as produced by
`json.load`, keys are distinct in any object that comes from a real file). -/
abbrev Obj := List (String × JVal)

/-- `Task.to_dict`: the four-key record written by the repository. -/
def Task.to_dict (t : Task) : Obj :=
  [("task_id", t.task_id), ("title", t.title),
   ("description", t.description), ("completed", t.completed)]

/-- The keyword parameters accepted by `Task.__init__`. -/
def taskKeys : List String := ["task_id", "title", "description", "completed"]

inductive RepoError where
  | storageError
deriving DecidableEq, Repr

/-- `Task(**d)` for a parsed object `d`: a key outside the parameter list is a
TypeError (unexpected keyword argument); a missing `task_id`, `title` or
`description` is a TypeError (missing required argument); a missing
`completed` takes the default `False`. Both TypeErrors are raised inside the
`try` of `load_tasks` and surface wrapped as the storage error. -/
def taskFromDict (d : Obj) : Except RepoError Task :=
  if d.all (fun kv => decide (kv.1 ∈ taskKeys)) then
    match d.lookup "task_id", d.lookup "title", d.lookup "description" with
    | some i, some t, some ds =>
        .ok { task_id := i, title := t, description := ds,
              completed := (d.lookup "completed").getD (.jbool false) }
    | _, _, _ => .error .storageError
  else .error .storageError

/-- The list comprehension `[Task(**task_data) for task_data in data]`:
objects are converted in order and the first failure aborts the whole load. -/
def tasksFromData : List Obj → Except RepoError (List Task)
  | [] => .ok []
  | d :: ds =>
      match taskFromDict d with
      | .error e => .error e
      | .ok t =>
          match tasksFromData ds with
          | .error e => .error e
          | .ok ts => .ok (t :: ts)

/-- The backing file of the JSON repository. -/
inductive FileState where
  | absent
  | malformed
  | doc (objs : List Obj)
deriving DecidableEq, Repr

/-- Outcome of the physical write performed by `save_tasks`. `open(path, 'w')`
truncates the file the moment it succeeds; a failure after that point leaves
a strict prefix of the serialized array, which is never valid JSON. -/
inductive WriteFault where
  | ok
  | failOpen
  | midWrite
deriving DecidableEq, Repr

namespace JsonTaskRepository

/-- `JsonTaskRepository.save_tasks`: writes `[task.to_dict() for task in tasks]`
to the configured path, raising the storage error if anything fails. Returns
the resulting file state and the error, if any. -/
def save_tasks (tasks : List Task) (fault : WriteFault) (fs : FileState) :
    FileState × Option RepoError :=
  match fault with
  | .ok => (.doc (tasks.map Task.to_dict), none)
  | .failOpen => (fs, some .storageError)
  | .midWrite => (.malformed, some .storageError)

/-- `JsonTaskRepository.load_tasks`: a missing file (FileNotFoundError) yields
`[]`; any other failure — unparsable content, or an object that `Task(**d)`
rejects — surfaces as the storage error. -/
def load_tasks (fs : FileState) : Except RepoError (List Task) :=
  match fs with
  | .absent => .ok []
  | .malformed => .error .storageError
  | .doc objs =>
      match tasksFromData objs with
      | .ok ts => .ok ts
      | .error _ => .error .storageError

end JsonTaskRepository

inductive TMError where
  | storageError
  | taskNotFoundError
deriving DecidableEq, Repr

/-- A `TaskManager` together with the file behind its repository: the
in-memory collection and the backing file state. -/
structure ManagerState where
  tasks : List Task
  fs : FileState
deriving DecidableEq, Repr

namespace TaskManager

/-- `TaskManager.__init__`: loads the collection once; a load failure
propagates to the caller and construction fails. -/
def init (fs : FileState) : Except TMError ManagerState :=
  match JsonTaskRepository.load_tasks fs with
  | .ok ts => .ok { tasks := ts, fs := fs }
  | .error _ => .error .storageError

/-- `TaskManager.add_task`: new id is `len(self.tasks) + 1`, the task is
appended, then the full collection is saved. The append survives a failed
save (no rollback), as in the source. -/
def add_task (fault : WriteFault) (title description : String)
    (st : ManagerState) : ManagerState × Option TMError :=
  let task_id : Int := st.tasks.length + 1
  let task : Task := { task_id := .jint task_id, title := .jstr title,
                       description := .jstr description, completed := .jbool false }
  let tasks := st.tasks ++ [task]
  let sv := JsonTaskRepository.save_tasks tasks fault st.fs
  ({ tasks := tasks, fs := sv.1 }, sv.2.map (fun _ => .storageError))

/-- The `for task in self.tasks` loop of `complete_task`: marks the first task
whose id compares equal (Python `==`) to the argument, or reports no match. -/
def completeFirst (task_id : Int) : List Task → Option (List Task)
  | [] => none
  | t :: ts =>
      if pyEq t.task_id (.jint task_id) then some (t.mark_completed :: ts)
      else (completeFirst task_id ts).map (fun ts2 => t :: ts2)

/-- `TaskManager.complete_task`: on the first matching task, marks it and
saves the full collection; with no match, raises the not-found error without
touching storage. -/
def complete_task (fault : WriteFault) (task_id : Int)
    (st : ManagerState) : ManagerState × Option TMError :=
  match completeFirst task_id st.tasks with
  | some tasks =>
      let sv := JsonTaskRepository.save_tasks tasks fault st.fs
      ({ tasks := tasks, fs := sv.1 }, sv.2.map (fun _ => .storageError))
  | none => (st, some .taskNotFoundError)

/-- `TaskManager.list_tasks`: returns the in-memory collection. -/
def list_tasks (st : ManagerState) : List Task := st.tasks

end TaskManager

/-- Applies `add_task` for each (title, description) pair in order, with every
save succeeding. -/
def addMany (calls : List (String × String)) (st : ManagerState) : ManagerState :=
  calls.foldl (fun s c => (TaskManager.add_task .ok c.1 c.2 s).1) st

/-- No two tasks of the collection share an id. -/
def UniqueIds (ts : List Task) : Prop := (ts.map Task.task_id).Nodup

/-- The ids of the collection are exactly `1..N` in order. -/
def Contiguous (ts : List Task) : Prop :=
  ts.map Task.task_id = (List.range ts.length).map (fun i : Nat => JVal.jint ((i : Int) + 1))

/-- All four fields carry the dynamic type the design intends. -/
def ValidTask (t : Task) : Prop :=
  (t.task_id.isInt && t.title.isStr && t.description.isStr && t.completed.isBool) = true

instance (ts : List Task) : Decidable (UniqueIds ts) :=
  inferInstanceAs (Decidable (ts.map Task.task_id).Nodup)

instance (ts : List Task) : Decidable (Contiguous ts) :=
  inferInstanceAs (Decidable (_ = _))

instance (t : Task) : Decidable (ValidTask t) :=
  inferInstanceAs (Decidable (_ = _))

/-! Helper lemmas about the embedded operations. -/

theorem task_id_mark_completed (t : Task) : t.mark_completed.task_id = t.task_id := rfl

theorem pyEq_jint_iff (v : JVal) (hv : v.isInt = true) (id : Int) :
    pyEq v (.jint id) = true ↔ v = .jint id := by
  cases v with
  | jint n => simp [pyEq]
  | jstr s => simp [JVal.isInt] at hv
  | jbool b => simp [JVal.isInt] at hv

theorem completeFirst_of_not_mem (id : Int) (ts : List Task)
    (h : ∀ t ∈ ts, pyEq t.task_id (.jint id) = false) :
    TaskManager.completeFirst id ts = none := by
  induction ts with
  | nil => rfl
  | cons t ts ih =>
      simp only [TaskManager.completeFirst, h t (by simp),
        ih (fun x hx => h x (by simp [hx])), if_neg]
      rfl

theorem completeFirst_ids (id : Int) (ts l : List Task)
    (h : TaskManager.completeFirst id ts = some l) :
    l.map Task.task_id = ts.map Task.task_id := by
  induction ts generalizing l with
  | nil => simp [TaskManager.completeFirst] at h
  | cons t ts ih =>
      by_cases hm : pyEq t.task_id (.jint id) = true
      · simp [TaskManager.completeFirst, hm] at h
        subst h
        simp [task_id_mark_completed]
      · simp [TaskManager.completeFirst, hm] at h
        obtain ⟨l2, hl2, rfl⟩ := h
        simp [ih l2 hl2]

theorem completeFirst_found (id : Int) (ts : List Task)
    (hints : ∀ t ∈ ts, t.task_id.isInt = true)
    (hnd : UniqueIds ts)
    (hmem : JVal.jint id ∈ ts.map Task.task_id) :
    TaskManager.completeFirst id ts =
      some (ts.map (fun t => if t.task_id = .jint id then t.mark_completed else t)) := by
  induction ts with
  | nil => simp at hmem
  | cons t ts ih =>
      have hnd2 : UniqueIds ts := by
        have := hnd
        simp only [UniqueIds, List.map_cons, List.nodup_cons] at this ⊢
        exact this.2
      have hndt : t.task_id ∉ ts.map Task.task_id := by
        have := hnd
        simp only [UniqueIds, List.map_cons, List.nodup_cons] at this
        exact this.1
      by_cases hm : t.task_id = .jint id
      · have hpy : pyEq t.task_id (.jint id) = true :=
          (pyEq_jint_iff _ (hints t (by simp)) id).mpr hm
        have htail :
            ts.map (fun x => if x.task_id = .jint id then x.mark_completed else x) = ts := by
          have hfix : ∀ x ∈ ts, (if x.task_id = .jint id then x.mark_completed else x) = x := by
            intro x hx
            rw [if_neg]
            intro hex
            exact hndt (by rw [hm, ← hex]; exact List.mem_map_of_mem _ hx)
          rw [List.map_congr_left hfix]
          exact List.map_id' ts
        rw [show TaskManager.completeFirst id (t :: ts) = some (t.mark_completed :: ts) from by
              simp [TaskManager.completeFirst, hpy],
          List.map_cons, if_pos hm, htail]
      · have hpy : pyEq t.task_id (.jint id) = false := by
          rcases Bool.eq_false_or_eq_true (pyEq t.task_id (.jint id)) with h | h
          · exact absurd ((pyEq_jint_iff _ (hints t (by simp)) id).mp h) hm
          · exact h
        have hmem2 : JVal.jint id ∈ ts.map Task.task_id := by
          rcases (by simpa using hmem :
              JVal.jint id = t.task_id ∨ ∃ a ∈ ts, a.task_id = JVal.jint id) with h | ⟨a, ha, hae⟩
          · exact absurd h.symm hm
          · exact List.mem_map.mpr ⟨a, ha, hae⟩
        have ih2 := ih (fun x hx => hints x (by simp [hx])) hnd2 hmem2
        rw [show TaskManager.completeFirst id (t :: ts)
              = (TaskManager.completeFirst id ts).map (fun l => t :: l) from by
              simp [TaskManager.completeFirst, hpy],
          ih2, List.map_cons, if_neg hm]
        rfl

theorem contiguous_snoc (ts : List Task) (h : Contiguous ts) (title description : String) :
    Contiguous (ts ++ [{ task_id := .jint ((ts.length : Int) + 1), title := .jstr title,
                         description := .jstr description, completed := .jbool false }]) := by
  unfold Contiguous at h ⊢
  simp only [List.map_append, List.length_append, List.map_cons, List.map_nil,
    List.length_cons, List.length_nil, List.range_succ, h]

theorem add_task_contiguous (fault : WriteFault) (title description : String)
    (st : ManagerState) (h : Contiguous st.tasks) :
    Contiguous (TaskManager.add_task fault title description st).1.tasks := by
  simpa [TaskManager.add_task] using contiguous_snoc st.tasks h title description

theorem contiguous_of_map_ids_eq (l ts : List Task)
    (h : l.map Task.task_id = ts.map Task.task_id) (hc : Contiguous ts) : Contiguous l := by
  unfold Contiguous at hc ⊢
  have hlen : l.length = ts.length := by
    have := congrArg List.length h
    simpa using this
  rw [h, hlen, hc]

theorem complete_task_contiguous (fault : WriteFault) (id : Int) (st : ManagerState)
    (h : Contiguous st.tasks) :
    Contiguous (TaskManager.complete_task fault id st).1.tasks := by
  unfold TaskManager.complete_task
  cases hcf : TaskManager.completeFirst id st.tasks with
  | none => simpa using h
  | some l =>
      simp only []
      exact contiguous_of_map_ids_eq l st.tasks (completeFirst_ids id st.tasks l hcf) h

theorem contiguous_uniqueIds (ts : List Task) (h : Contiguous ts) : UniqueIds ts := by
  unfold Contiguous at h
  unfold UniqueIds
  rw [h]
  have hinj : Function.Injective (fun i : Nat => JVal.jint ((i : Int) + 1)) := by
    intro a b hab
    simp only [JVal.jint.injEq] at hab
    omega
  exact List.Nodup.map hinj (List.nodup_range _)

theorem addMany_spec (calls : List (String × String)) :
    ∀ st : ManagerState, Contiguous st.tasks →
      Contiguous (addMany calls st).tasks ∧
      (addMany calls st).tasks.length = st.tasks.length + calls.length := by
  induction calls with
  | nil => exact fun st h => ⟨h, by simp [addMany]⟩
  | cons c cs ih =>
      intro st h
      have h1 := add_task_contiguous .ok c.1 c.2 st h
      have hlen1 : (TaskManager.add_task .ok c.1 c.2 st).1.tasks.length
          = st.tasks.length + 1 := by
        simp [TaskManager.add_task]
      have hrec := ih _ h1
      have hrw : addMany (c :: cs) st = addMany cs (TaskManager.add_task .ok c.1 c.2 st).1 := rfl
      refine ⟨by rw [hrw]; exact hrec.1, ?_⟩
      rw [hrw, hrec.2, hlen1]
      simp only [List.length_cons]
      omega

theorem lookup_eq_none_of_not_mem (k : String) (d : Obj) (h : k ∉ d.map Prod.fst) :
    d.lookup k = none := by
  induction d with
  | nil => rfl
  | cons kv d ih =>
      obtain ⟨k2, v⟩ := kv
      have hne : k ≠ k2 := fun he => h (by simp [he])
      rw [show List.lookup k ((k2, v) :: d) = List.lookup k d from by
        simp [List.lookup, beq_eq_false_iff_ne.mpr hne]]
      exact ih (fun hm => h (by simp [hm]))

theorem lookup_some_of_mem (k : String) (d : Obj) (h : k ∈ d.map Prod.fst) :
    ∃ v, d.lookup k = some v := by
  induction d with
  | nil => simp at h
  | cons kv d ih =>
      obtain ⟨k2, v⟩ := kv
      by_cases he : k = k2
      · exact ⟨v, by simp [List.lookup, he]⟩
      · have h2 : k ∈ d.map Prod.fst := by simpa [he] using h
        obtain ⟨v2, hv2⟩ := ih h2
        exact ⟨v2, by simp [List.lookup, beq_eq_false_iff_ne.mpr he, hv2]⟩

theorem mem_of_lookup_some (k : String) (d : Obj) (v : JVal) (h : d.lookup k = some v) :
    k ∈ d.map Prod.fst := by
  induction d with
  | nil => simp [List.lookup] at h
  | cons kv d ih =>
      obtain ⟨k2, v2⟩ := kv
      by_cases he : k = k2
      · simp [he]
      · rw [show List.lookup k ((k2, v2) :: d) = List.lookup k d from by
          simp [List.lookup, beq_eq_false_iff_ne.mpr he]] at h
        simp [ih h]

theorem taskFromDict_to_dict (t : Task) : taskFromDict t.to_dict = .ok t := rfl

theorem taskFromDict_extra_key (d : Obj) (k : String) (hk : k ∈ d.map Prod.fst)
    (hnk : k ∉ taskKeys) : taskFromDict d = .error .storageError := by
  unfold taskFromDict
  have hc : ¬ ((d.all fun kv => decide (kv.1 ∈ taskKeys)) = true) := by
    intro hall
    rw [List.all_eq_true] at hall
    obtain ⟨kv, hkvmem, hfst⟩ := List.mem_map.mp hk
    exact hnk (by rw [← hfst]; exact of_decide_eq_true (hall kv hkvmem))
  rw [if_neg hc]

theorem taskFromDict_missing_required (d : Obj)
    (hmiss : "task_id" ∉ d.map Prod.fst ∨ "title" ∉ d.map Prod.fst ∨
      "description" ∉ d.map Prod.fst) :
    taskFromDict d = .error .storageError := by
  unfold taskFromDict
  by_cases hall : (d.all fun kv => decide (kv.1 ∈ taskKeys)) = true
  · rw [if_pos hall]
    cases h1 : d.lookup "task_id" <;> cases h2 : d.lookup "title" <;>
      cases h3 : d.lookup "description" <;> try rfl
    rcases hmiss with h | h | h
    · exact absurd (mem_of_lookup_some _ _ _ h1) h
    · exact absurd (mem_of_lookup_some _ _ _ h2) h
    · exact absurd (mem_of_lookup_some _ _ _ h3) h
  · rw [if_neg hall]

theorem taskFromDict_no_completed (d : Obj)
    (hall : ∀ k ∈ d.map Prod.fst, k ∈ taskKeys)
    (h1 : "task_id" ∈ d.map Prod.fst) (h2 : "title" ∈ d.map Prod.fst)
    (h3 : "description" ∈ d.map Prod.fst) (h4 : "completed" ∉ d.map Prod.fst) :
    ∃ i t ds, taskFromDict d =
      .ok { task_id := i, title := t, description := ds, completed := .jbool false } := by
  obtain ⟨vi, hvi⟩ := lookup_some_of_mem _ _ h1
  obtain ⟨vt, hvt⟩ := lookup_some_of_mem _ _ h2
  obtain ⟨vd, hvd⟩ := lookup_some_of_mem _ _ h3
  have hc := lookup_eq_none_of_not_mem _ _ h4
  have hall2 : (d.all fun kv => decide (kv.1 ∈ taskKeys)) = true := by
    rw [List.all_eq_true]
    intro kv hkv
    exact decide_eq_true (hall kv.1 (List.mem_map_of_mem _ hkv))
  refine ⟨vi, vt, vd, ?_⟩
  unfold taskFromDict
  rw [if_pos hall2, hvi, hvt, hvd, hc]
  rfl

theorem tasksFromData_to_dict (T : List Task) :
    tasksFromData (T.map Task.to_dict) = .ok T := by
  induction T with
  | nil => rfl
  | cons t T ih => simp only [List.map_cons, tasksFromData, taskFromDict_to_dict, ih]

theorem tasksFromData_error_of_mem (objs : List Obj) (d : Obj) (hd : d ∈ objs)
    (he : taskFromDict d = .error .storageError) :
    tasksFromData objs = .error .storageError := by
  induction objs with
  | nil => simp at hd
  | cons o os ih =>
      rcases List.mem_cons.mp hd with rfl | hmem
      · simp only [tasksFromData, he]
      · cases ho : taskFromDict o with
        | error e => cases e; simp only [tasksFromData, ho]
        | ok t => simp only [tasksFromData, ho, ih hmem]

theorem load_tasks_doc_error (objs : List Obj)
    (h : tasksFromData objs = .error .storageError) :
    JsonTaskRepository.load_tasks (.doc objs) = .error .storageError := by
  simp only [JsonTaskRepository.load_tasks, h]

theorem load_tasks_doc_ok (objs : List Obj) (ts : List Task)
    (h : tasksFromData objs = .ok ts) :
    JsonTaskRepository.load_tasks (.doc objs) = .ok ts := by
  simp only [JsonTaskRepository.load_tasks, h]

theorem task_id_ite (c : Prop) [Decidable c] (s : Task) :
    (if c then s.mark_completed else s).task_id = s.task_id := by
  split <;> rfl

theorem map_mark_ids (id : Int) (ts : List Task) :
    (ts.map (fun t => if t.task_id = .jint id then t.mark_completed else t)).map Task.task_id
      = ts.map Task.task_id := by
  rw [List.map_map]
  apply List.map_congr_left
  intro t ht
  exact task_id_ite _ t

theorem mem_marked (id : Int) (ts : List Task) :
    ∀ t ∈ ts.map (fun t => if t.task_id = .jint id then t.mark_completed else t),
      t.task_id = .jint id → t.completed = .jbool true := by
  intro t ht hid
  obtain ⟨s, hs, rfl⟩ := List.mem_map.mp ht
  by_cases h : s.task_id = .jint id
  · simp [h, Task.mark_completed]
  · exact absurd (by simpa [if_neg h] using hid) h

theorem complete_task_found (id : Int) (st : ManagerState)
    (hints : ∀ t ∈ st.tasks, t.task_id.isInt = true)
    (hnd : UniqueIds st.tasks)
    (hmem : JVal.jint id ∈ st.tasks.map Task.task_id) :
    TaskManager.complete_task .ok id st =
      ({ tasks := st.tasks.map (fun t => if t.task_id = .jint id then t.mark_completed else t),
         fs := .doc ((st.tasks.map
            (fun t => if t.task_id = .jint id then t.mark_completed else t)).map Task.to_dict) },
       none) := by
  unfold TaskManager.complete_task
  rw [completeFirst_found id st.tasks hints hnd hmem]
  rfl

/-! Claim theorems. -/

def c1_stored : Task :=
  { task_id := .jint 2, title := .jstr "X", description := .jstr "d", completed := .jbool false }

/-- C1 (counterexample): over a backend whose stored collection has the single
non-contiguous id 2, the manager constructs successfully, yet the very next
`add_task` assigns id `len + 1 = 2` and the collection ends with two tasks
sharing id 2 — the uniqueness invariant is not preserved as claimed. -/
theorem C1_counterexample :
    TaskManager.init (.doc [c1_stored.to_dict])
      = .ok { tasks := [c1_stored], fs := .doc [c1_stored.to_dict] } ∧
    ¬ UniqueIds (TaskManager.add_task .ok "Y" "descY"
        { tasks := [c1_stored], fs := .doc [c1_stored.to_dict] }).1.tasks := by
  exact ⟨rfl, by decide⟩

/-- C1 (amended): when the collection's ids are exactly `1..N` in order — as
after construction over an empty backend — no two tasks share an id, and both
`add_task` (which assigns `length + 1`) and `complete_task` (which never
changes an id) keep the ids exactly `1..N'` in order, hence keep them unique;
over a backend with non-contiguous stored ids `add_task` can collide. -/
theorem C1_uniqueness_contiguous (st : ManagerState) (title description : String)
    (id : Int) (fault : WriteFault) (h : Contiguous st.tasks) :
    UniqueIds st.tasks ∧
    Contiguous (TaskManager.add_task fault title description st).1.tasks ∧
    Contiguous (TaskManager.complete_task fault id st).1.tasks :=
  ⟨contiguous_uniqueIds _ h,
   add_task_contiguous fault title description st h,
   complete_task_contiguous fault id st h⟩

/-- C1 (witness): the amended theorem applied to the state of a freshly
constructed manager over an empty backend. -/
theorem C1_witness :
    UniqueIds ({ tasks := [], fs := FileState.absent } : ManagerState).tasks ∧
    Contiguous (TaskManager.add_task .ok "A" "a"
        { tasks := [], fs := FileState.absent }).1.tasks ∧
    Contiguous (TaskManager.complete_task .ok 1
        { tasks := [], fs := FileState.absent }).1.tasks :=
  C1_uniqueness_contiguous { tasks := [], fs := FileState.absent } "A" "a" 1 .ok rfl

def c2_old : Task :=
  { task_id := .jint 1, title := .jstr "A", description := .jstr "a", completed := .jbool false }

def c2_new : Task :=
  { task_id := .jint 1, title := .jstr "A", description := .jstr "a", completed := .jbool true }

/-- C2 (code defect): `save_tasks` opens the path with write mode, which
truncates the previous content before `json.dump` runs; a write that fails
after the open (`midWrite`) therefore raises the storage error while leaving
a state that is neither the previously stored collection nor the new one —
the stored document is unparsable afterwards — contradicting the atomicity
the code's own comment claims (`escribe todo o nada`). -/
theorem C2_save_not_atomic :
    (JsonTaskRepository.save_tasks [c2_new] .midWrite (.doc [c2_old.to_dict])).2
        = some .storageError ∧
    (JsonTaskRepository.save_tasks [c2_new] .midWrite (.doc [c2_old.to_dict])).1
        ≠ .doc [c2_old.to_dict] ∧
    (JsonTaskRepository.save_tasks [c2_new] .midWrite (.doc [c2_old.to_dict])).1
        ≠ .doc ([c2_new].map Task.to_dict) ∧
    JsonTaskRepository.load_tasks
        (JsonTaskRepository.save_tasks [c2_new] .midWrite (.doc [c2_old.to_dict])).1
      = .error .storageError :=
  ⟨rfl, by decide, by decide, rfl⟩

/-- C3: a manager constructed over an empty backend starts with the empty
collection, and after any sequence of `add_task` calls (all saves succeeding)
the collection's ids are exactly `1..N` in call order and `list_tasks` has
length `N`, the number of calls. -/
theorem C3_add_assigns_sequential_ids (calls : List (String × String)) :
    TaskManager.init FileState.absent
      = .ok { tasks := [], fs := FileState.absent } ∧
    Contiguous (addMany calls { tasks := [], fs := FileState.absent }).tasks ∧
    (TaskManager.list_tasks (addMany calls { tasks := [], fs := FileState.absent })).length
      = calls.length := by
  have h := addMany_spec calls { tasks := [], fs := FileState.absent } rfl
  exact ⟨rfl, h.1, by simpa [TaskManager.list_tasks] using h.2⟩

/-- C4: saving any non-empty sequence of valid tasks and loading from the same
repository returns exactly that sequence, field for field and in order. -/
theorem C4_roundtrip (T : List Task) (fs : FileState)
    (hne : T ≠ []) (hvalid : ∀ t ∈ T, ValidTask t) :
    JsonTaskRepository.load_tasks (JsonTaskRepository.save_tasks T .ok fs).1
      = .ok T :=
  load_tasks_doc_ok _ _ (tasksFromData_to_dict T)

def c4_task : Task :=
  { task_id := .jint 1, title := .jstr "A", description := .jstr "a", completed := .jbool false }

/-- C4 (witness): the round trip evaluated on a one-task collection. -/
theorem C4_witness :
    JsonTaskRepository.load_tasks
        (JsonTaskRepository.save_tasks [c4_task] .ok .absent).1 = .ok [c4_task] :=
  C4_roundtrip [c4_task] .absent (by decide) (by decide)

def c5_st : ManagerState :=
  { tasks := [{ task_id := .jint 1, title := .jstr "A", description := .jstr "a",
                completed := .jbool false }],
    fs := FileState.absent }

/-- C5: for a collection of integer-id tasks with no duplicate id, and an id
present in it, `complete_task` raises no error, marks exactly the task with
that id completed while every other task is unchanged in place, and the
persisted document afterwards is exactly the serialization of the in-memory
collection. -/
theorem C5_complete_present (st : ManagerState) (id : Int)
    (hints : ∀ t ∈ st.tasks, t.task_id.isInt = true)
    (hnd : UniqueIds st.tasks)
    (hmem : JVal.jint id ∈ st.tasks.map Task.task_id) :
    (TaskManager.complete_task .ok id st).2 = none ∧
    (TaskManager.complete_task .ok id st).1.tasks
      = st.tasks.map (fun t => if t.task_id = .jint id then t.mark_completed else t) ∧
    (∀ t ∈ (TaskManager.complete_task .ok id st).1.tasks,
      t.task_id = .jint id → t.completed = .jbool true) ∧
    (TaskManager.complete_task .ok id st).1.fs
      = .doc ((TaskManager.complete_task .ok id st).1.tasks.map Task.to_dict) := by
  have h := complete_task_found id st hints hnd hmem
  rw [h]
  exact ⟨rfl, rfl, mem_marked id st.tasks, rfl⟩

/-- C5 (witness): the theorem applied to a one-task collection and its id. -/
theorem C5_witness :
    (TaskManager.complete_task .ok 1 c5_st).2 = none ∧
    (TaskManager.complete_task .ok 1 c5_st).1.tasks
      = c5_st.tasks.map (fun t => if t.task_id = .jint 1 then t.mark_completed else t) ∧
    (∀ t ∈ (TaskManager.complete_task .ok 1 c5_st).1.tasks,
      t.task_id = .jint 1 → t.completed = .jbool true) ∧
    (TaskManager.complete_task .ok 1 c5_st).1.fs
      = .doc ((TaskManager.complete_task .ok 1 c5_st).1.tasks.map Task.to_dict) :=
  C5_complete_present c5_st 1 (by decide) (by decide) (by decide)

def c6_st : ManagerState :=
  { tasks := [{ task_id := .jint 1, title := .jstr "A", description := .jstr "a",
                completed := .jbool false }],
    fs := FileState.doc [] }

/-- C6: for an id carried by no task of an integer-id collection,
`complete_task` raises the not-found error and returns the state completely
unchanged — in particular the backing file is untouched whatever the write
fault would have been, showing no persistence call happens. -/
theorem C6_complete_absent (st : ManagerState) (id : Int) (fault : WriteFault)
    (hints : ∀ t ∈ st.tasks, t.task_id.isInt = true)
    (habs : JVal.jint id ∉ st.tasks.map Task.task_id) :
    TaskManager.complete_task fault id st = (st, some .taskNotFoundError) := by
  have hno : ∀ t ∈ st.tasks, pyEq t.task_id (.jint id) = false := by
    intro t ht
    rcases Bool.eq_false_or_eq_true (pyEq t.task_id (.jint id)) with h | h
    · exact absurd
        (List.mem_map.mpr ⟨t, ht, (pyEq_jint_iff _ (hints t ht) id).mp h⟩) habs
    · exact h
  unfold TaskManager.complete_task
  rw [completeFirst_of_not_mem id st.tasks hno]

/-- C6 (witness): the theorem applied to a one-task collection, an id not in
it, and a faulting backend (whose fault is never exercised). -/
theorem C6_witness :
    TaskManager.complete_task .midWrite 2 c6_st = (c6_st, some .taskNotFoundError) :=
  C6_complete_absent c6_st 2 .midWrite (by decide) (by decide)

/-- C7: loading when the path does not exist returns the empty collection
without error, while a path whose content cannot be parsed raises the storage
error — the two cases are distinguished. -/
theorem C7_load_first_run :
    JsonTaskRepository.load_tasks .absent = .ok ([] : List Task) ∧
    JsonTaskRepository.load_tasks .malformed = .error .storageError :=
  ⟨rfl, rfl⟩

def c8_st : ManagerState :=
  { tasks := [{ task_id := .jint 2, title := .jstr "B", description := .jstr "b",
                completed := .jbool false }],
    fs := FileState.absent }

/-- C8: on an integer-id collection without duplicate ids, two successive
`complete_task` calls on the same present id both succeed (neither raises)
and the task with that id ends with `completed = true`. -/
theorem C8_complete_idempotent (st : ManagerState) (id : Int)
    (hints : ∀ t ∈ st.tasks, t.task_id.isInt = true)
    (hnd : UniqueIds st.tasks)
    (hmem : JVal.jint id ∈ st.tasks.map Task.task_id) :
    (TaskManager.complete_task .ok id st).2 = none ∧
    (TaskManager.complete_task .ok id (TaskManager.complete_task .ok id st).1).2 = none ∧
    (∀ t ∈ (TaskManager.complete_task .ok id
        (TaskManager.complete_task .ok id st).1).1.tasks,
      t.task_id = .jint id → t.completed = .jbool true) := by
  have h1 := complete_task_found id st hints hnd hmem
  have hints2 : ∀ t ∈ (TaskManager.complete_task .ok id st).1.tasks,
      t.task_id.isInt = true := by
    rw [h1]
    intro t ht
    obtain ⟨s, hs, rfl⟩ := List.mem_map.mp ht
    rw [task_id_ite]
    exact hints s hs
  have hnd2 : UniqueIds (TaskManager.complete_task .ok id st).1.tasks := by
    rw [h1]
    unfold UniqueIds
    rw [map_mark_ids]
    exact hnd
  have hmem2 : JVal.jint id ∈
      (TaskManager.complete_task .ok id st).1.tasks.map Task.task_id := by
    rw [h1]
    show JVal.jint id ∈ (st.tasks.map _).map Task.task_id
    rw [map_mark_ids]
    exact hmem
  have h2 := complete_task_found id (TaskManager.complete_task .ok id st).1 hints2 hnd2 hmem2
  refine ⟨by rw [h1], by rw [h2], ?_⟩
  rw [h2]
  exact mem_marked id _

/-- C8 (witness): the theorem applied twice to a one-task collection. -/
theorem C8_witness :
    (TaskManager.complete_task .ok 2 c8_st).2 = none ∧
    (TaskManager.complete_task .ok 2 (TaskManager.complete_task .ok 2 c8_st).1).2 = none ∧
    (∀ t ∈ (TaskManager.complete_task .ok 2
        (TaskManager.complete_task .ok 2 c8_st).1).1.tasks,
      t.task_id = .jint 2 → t.completed = .jbool true) :=
  C8_complete_idempotent c8_st 2 (by decide) (by decide) (by decide)

def c9_stored : Task :=
  { task_id := .jint 5, title := .jstr "X", description := .jstr "descX",
    completed := .jbool false }

/-- C9: over a backend pre-populated with exactly one task of id 5, the
manager constructs with that task, and the next `add_task` assigns the new
task id `length + 1 = 2` (not `max + 1 = 6`): the ids afterwards are 5, 2. -/
theorem C9_add_after_external_write :
    TaskManager.init (.doc [c9_stored.to_dict])
      = .ok { tasks := [c9_stored], fs := .doc [c9_stored.to_dict] } ∧
    ((TaskManager.add_task .ok "Y" "descY"
        { tasks := [c9_stored], fs := .doc [c9_stored.to_dict] }).1.tasks.map Task.task_id)
      = [.jint 5, .jint 2] :=
  ⟨rfl, rfl⟩

def c10_obj : Obj := [("task_id", JVal.jint 1), ("name", JVal.jstr "A")]

/-- C10: if a stored object's key set strays from
`task_id, title, description, completed` then loading the document fails with
the storage error — whether the stray key is outside the accepted set or one
of the three required keys is missing — with the single exception that an
object missing only `completed` is accepted by the `Task` constructor's
default, yielding `completed = false`. -/
theorem C10_keyset (objs : List Obj) (d : Obj) (hd : d ∈ objs) :
    ((∃ k ∈ d.map Prod.fst, k ∉ taskKeys) →
      JsonTaskRepository.load_tasks (.doc objs) = .error .storageError) ∧
    (("task_id" ∉ d.map Prod.fst ∨ "title" ∉ d.map Prod.fst ∨
        "description" ∉ d.map Prod.fst) →
      JsonTaskRepository.load_tasks (.doc objs) = .error .storageError) ∧
    ((∀ k ∈ d.map Prod.fst, k ∈ taskKeys) → "task_id" ∈ d.map Prod.fst →
      "title" ∈ d.map Prod.fst → "description" ∈ d.map Prod.fst →
      "completed" ∉ d.map Prod.fst →
      ∃ i t ds, taskFromDict d =
        .ok { task_id := i, title := t, description := ds, completed := .jbool false }) := by
  refine ⟨?_, ?_, ?_⟩
  · rintro ⟨k, hk, hnk⟩
    exact load_tasks_doc_error _
      (tasksFromData_error_of_mem _ _ hd (taskFromDict_extra_key _ k hk hnk))
  · intro hmiss
    exact load_tasks_doc_error _
      (tasksFromData_error_of_mem _ _ hd (taskFromDict_missing_required _ hmiss))
  · intro hall h1 h2 h3 h4
    exact taskFromDict_no_completed d hall h1 h2 h3 h4

/-- C10 (witness): a document whose single object carries the stray key
`name` fails to load. -/
theorem C10_witness :
    JsonTaskRepository.load_tasks (.doc [c10_obj]) = .error .storageError :=
  (C10_keyset [c10_obj] c10_obj (by decide)).1 ⟨"name", by decide, by decide⟩

end Taskmanager
